import Mathlib

/- Verification development for the APZmedia ComfyUI PSD tools repository.
   The Python utilities in `utils/apz_psd_tools_utility.py`,
   `utils/apz_psd_loader_utility.py`, `utils/apz_psd_conversion.py` and the
   node entry points in `nodes/` are shallowly embedded below: PIL images
   become explicit rasters (dimensions plus a pixel function), the
   filesystem becomes a list of existing paths, tensors become shape/value
   records over the rationals, and Python exceptions become `Except`
   values.  Effects supplied by the third-party libraries (LANCZOS
   resampling, psd-tools layer construction, parsing) are abstracted as
   function parameters, while every piece of control flow written in this
   repository is translated directly. -/

/- An 8-bit RGBA sample.  PIL `L`-mode (grayscale) images store their gray
   value in the `r` field. -/
@[ext]
structure RGBA where
  r : Nat
  g : Nat
  b : Nat
  a : Nat
deriving DecidableEq, Repr

/- The PIL image modes used by the repository. -/
inductive PMode where
  | RGB
  | RGBA
  | L
deriving DecidableEq, Repr

/- A PIL image: mode, size and a total pixel function (column, row). -/
@[ext]
structure PImage where
  mode : PMode
  width : Nat
  height : Nat
  pix : Nat → Nat → RGBA

/- PIL luminance conversion for one RGB sample (ITU-R 601-2 as used by
   `Image.convert("L")`). -/
def lumaOf (p : RGBA) : Nat :=
  (p.r * 19595 + p.g * 38470 + p.b * 7471 + 32768) / 65536

/- `Image.convert`: the mode conversions the embedded code can reach.
   Converting to the current mode is the identity, as in PIL. -/
def PImage.convert (img : PImage) (m : PMode) : PImage :=
  if img.mode = m then img
  else
    match m with
    | PMode.RGBA =>
        { img with mode := PMode.RGBA,
                   pix := fun x y =>
                     match img.mode with
                     | PMode.L => let g := (img.pix x y).r; ⟨g, g, g, 255⟩
                     | _ => { img.pix x y with a := 255 } }
    | PMode.RGB =>
        { img with mode := PMode.RGB,
                   pix := fun x y =>
                     match img.mode with
                     | PMode.L => let g := (img.pix x y).r; ⟨g, g, g, 255⟩
                     | _ => { img.pix x y with a := 255 } }
    | PMode.L =>
        { img with mode := PMode.L,
                   pix := fun x y => let l := lumaOf (img.pix x y); ⟨l, 0, 0, 255⟩ }

/- `Image.new(mode, (w, h), color)`. -/
def PImage.new (m : PMode) (w h : Nat) (c : RGBA) : PImage :=
  ⟨m, w, h, fun _ _ => c⟩

/- One channel of PIL `paste` with a mask value `m` (0 keeps the canvas
   sample, 255 takes the pasted sample, in-between blends). -/
def pasteBlendChan (cv im m : Nat) : Nat :=
  (cv * (255 - m) + im * m) / 255

/- PIL `paste` blending of one RGBA sample onto a canvas sample, using the
   own alpha of the pasted image as the mask (the code pastes with
   `canvas.paste(image, (x, y), image)`). -/
def pasteBlend (cv im : RGBA) : RGBA :=
  ⟨pasteBlendChan cv.r im.r im.a,
   pasteBlendChan cv.g im.g im.a,
   pasteBlendChan cv.b im.b im.a,
   pasteBlendChan cv.a im.a im.a⟩

/- `canvas.paste(img, (x, y), img)`: inside the pasted rectangle the canvas
   sample is blended with the image sample by the alpha of the image; outside it
   the canvas is unchanged.  Offsets are integers, as in PIL. -/
def PImage.paste (canvas img : PImage) (x y : Int) : PImage :=
  { canvas with pix := fun px py =>
      let ix : Int := (px : Int) - x
      let iy : Int := (py : Int) - y
      if 0 ≤ ix ∧ ix < (img.width : Int) ∧ 0 ≤ iy ∧ iy < (img.height : Int) then
        pasteBlend (canvas.pix px py) (img.pix ix.toNat iy.toNat)
      else canvas.pix px py }

/- `calculate_canvas_size` from `utils/apz_psd_tools_utility.py`: the empty
   list yields the 512x512 default, otherwise the maximum width and the
   maximum height over all images. -/
def calculate_canvas_size (images : List PImage) : Nat × Nat :=
  if images.isEmpty then (512, 512)
  else ((images.map PImage.width).foldl max 0, (images.map PImage.height).foldl max 0)

/- `resize_image_to_canvas` from `utils/apz_psd_tools_utility.py`: convert
   to RGBA, create a fully transparent canvas, and paste the image centered
   (`(canvas_width - image.width) // 2`, floor division on integers). -/
def resize_image_to_canvas (image : PImage) (canvas_width canvas_height : Nat) : PImage :=
  let image := if image.mode = PMode.RGBA then image else image.convert PMode.RGBA
  let canvas := PImage.new PMode.RGBA canvas_width canvas_height ⟨0, 0, 0, 0⟩
  let x : Int := Int.fdiv ((canvas_width : Int) - (image.width : Int)) 2
  let y : Int := Int.fdiv ((canvas_height : Int) - (image.height : Int)) 2
  canvas.paste image x y

/- `apply_mask_to_image` from `utils/apz_psd_tools_utility.py`.  The PIL
   LANCZOS resize is an external-library effect and is abstracted as the
   `resize` parameter; everything else is control flow of the function itself:
   ensure RGBA, ensure `L` mode, resize the mask when the sizes differ, and
   replace the alpha channel by the mask samples. -/
def apply_mask_to_image (resize : PImage → Nat → Nat → PImage)
    (image mask : PImage) : PImage :=
  let image := if image.mode = PMode.RGBA then image else image.convert PMode.RGBA
  let mask := if mask.mode = PMode.L then mask else mask.convert PMode.L
  let mask :=
    if mask.width = image.width ∧ mask.height = image.height then mask
    else resize mask image.width image.height
  { mode := PMode.RGBA, width := image.width, height := image.height,
    pix := fun x y =>
      ⟨(image.pix x y).r, (image.pix x y).g, (image.pix x y).b, (mask.pix x y).r⟩ }

/- Upper bound for a `foldl max` accumulator. -/
theorem le_foldl_max (l : List Nat) (a : Nat) : a ≤ l.foldl max a := by
  induction l generalizing a with
  | nil => exact Nat.le_refl a
  | cons x xs ih => exact Nat.le_trans (Nat.le_max_left a x) (ih (max a x))

/- Every member of the list is bounded by the `foldl max` result. -/
theorem mem_le_foldl_max {l : List Nat} {x : Nat} (a : Nat) (hx : x ∈ l) :
    x ≤ l.foldl max a := by
  induction l generalizing a with
  | nil => cases hx
  | cons y ys ih =>
      rcases List.mem_cons.mp hx with h | h
      · subst h
        exact Nat.le_trans (Nat.le_max_right a x) (le_foldl_max ys (max a x))
      · exact ih (max a y) h

/- The `foldl max` result is either the seed or a member of the list. -/
theorem foldl_max_mem (l : List Nat) (a : Nat) :
    l.foldl max a = a ∨ l.foldl max a ∈ l := by
  induction l generalizing a with
  | nil => exact Or.inl rfl
  | cons x xs ih =>
      have hfold : (x :: xs).foldl max a = xs.foldl max (max a x) := rfl
      rcases ih (max a x) with h | h
      · rcases max_choice a x with hm | hm
        · exact Or.inl (by rw [hfold, h, hm])
        · exact Or.inr (by rw [hfold, h, hm]; exact List.mem_cons_self x xs)
      · exact Or.inr (by rw [hfold]; exact List.mem_cons_of_mem x h)

/- Pasting a fully opaque sample copies it exactly, whatever the canvas
   held. -/
theorem pasteBlend_opaque (cv p : RGBA) (h : p.a = 255) : pasteBlend cv p = p := by
  have hc : ∀ c i : Nat, pasteBlendChan c i 255 = i := by
    intro c i
    simp [pasteBlendChan]
  cases p
  simp_all [pasteBlend]

/-- C3: `apply_mask_to_image` on an RGBA image and an `L` mask of the same
size replaces the alpha channel by the mask samples exactly, with no
resampling applied (the result does not depend on the resize function);
when the sizes differ, the mask is first resized to the image size by the
(LANCZOS) resize function and the resized samples become the alpha
channel.  The result always has the dimensions of the image. -/
theorem apply_mask_alpha_replacement_c3
    (resize resize' : PImage → Nat → Nat → PImage) (image mask : PImage)
    (him : image.mode = PMode.RGBA) (hmk : mask.mode = PMode.L) :
    ((mask.width = image.width ∧ mask.height = image.height) →
        (∀ x y, (apply_mask_to_image resize image mask).pix x y
            = ⟨(image.pix x y).r, (image.pix x y).g, (image.pix x y).b,
               (mask.pix x y).r⟩)
        ∧ apply_mask_to_image resize image mask
            = apply_mask_to_image resize' image mask)
    ∧ (¬(mask.width = image.width ∧ mask.height = image.height) →
        ∀ x y, (apply_mask_to_image resize image mask).pix x y
            = ⟨(image.pix x y).r, (image.pix x y).g, (image.pix x y).b,
               ((resize mask image.width image.height).pix x y).r⟩)
    ∧ (apply_mask_to_image resize image mask).width = image.width
    ∧ (apply_mask_to_image resize image mask).height = image.height := by
  constructor
  · intro hs
    exact ⟨fun x y => by simp [apply_mask_to_image, him, hmk, hs],
           by simp [apply_mask_to_image, him, hmk, hs]⟩
  refine ⟨fun hs x y => by simp [apply_mask_to_image, him, hmk, hs], ?_, ?_⟩ <;>
    simp [apply_mask_to_image, him, hmk]

/-- C3 witness: a concrete 1x1 RGBA image and matching 1x1 mask. -/
theorem apply_mask_alpha_replacement_c3_witness :
    let image : PImage := ⟨PMode.RGBA, 1, 1, fun _ _ => ⟨10, 20, 30, 255⟩⟩
    let mask : PImage := ⟨PMode.L, 1, 1, fun _ _ => ⟨77, 0, 0, 255⟩⟩
    let rz : PImage → Nat → Nat → PImage := fun m _ _ => m
    (mask.width = image.width ∧ mask.height = image.height)
    ∧ ((mask.width = image.width ∧ mask.height = image.height) →
        (∀ x y, (apply_mask_to_image rz image mask).pix x y
            = ⟨(image.pix x y).r, (image.pix x y).g, (image.pix x y).b,
               (mask.pix x y).r⟩)
        ∧ apply_mask_to_image rz image mask = apply_mask_to_image rz image mask) := by
  intro image mask rz
  exact ⟨⟨rfl, rfl⟩,
    (apply_mask_alpha_replacement_c3 rz rz image mask rfl rfl).1⟩

/-- C6: `calculate_canvas_size` of a non-empty layer list is exactly the
pair (maximum width, maximum height) over the layers, the empty list gives
the fixed 512x512 fallback, and every raster composited onto that canvas
by `resize_image_to_canvas` has exactly the canvas dimensions. -/
theorem calculate_canvas_size_max_c6 (images : List PImage) (hne : images ≠ []) :
    (∀ img ∈ images, img.width ≤ (calculate_canvas_size images).1
        ∧ img.height ≤ (calculate_canvas_size images).2)
    ∧ (∃ img ∈ images, img.width = (calculate_canvas_size images).1)
    ∧ (∃ img ∈ images, img.height = (calculate_canvas_size images).2)
    ∧ calculate_canvas_size ([] : List PImage) = (512, 512)
    ∧ (∀ img : PImage,
        (resize_image_to_canvas img (calculate_canvas_size images).1
            (calculate_canvas_size images).2).width
          = (calculate_canvas_size images).1
        ∧ (resize_image_to_canvas img (calculate_canvas_size images).1
            (calculate_canvas_size images).2).height
          = (calculate_canvas_size images).2) := by
  have hempty : images.isEmpty = false := by
    cases images with
    | nil => exact absurd rfl hne
    | cons a l => rfl
  have hcs : calculate_canvas_size images
      = ((images.map PImage.width).foldl max 0, (images.map PImage.height).foldl max 0) := by
    simp [calculate_canvas_size, hempty]
  refine ⟨?_, ?_, ?_, rfl, ?_⟩
  · intro img hmem
    rw [hcs]
    exact ⟨mem_le_foldl_max 0 (List.mem_map_of_mem PImage.width hmem),
           mem_le_foldl_max 0 (List.mem_map_of_mem PImage.height hmem)⟩
  · rw [hcs]
    rcases foldl_max_mem (images.map PImage.width) 0 with h0 | hmem
    · cases images with
      | nil => exact absurd rfl hne
      | cons a l =>
          refine ⟨a, List.mem_cons_self a l, Nat.le_antisymm ?_ ?_⟩
          · exact mem_le_foldl_max 0 (List.mem_map_of_mem PImage.width
              (List.mem_cons_self a l))
          · rw [h0]; exact Nat.zero_le _
    · rcases List.mem_map.mp hmem with ⟨img, himg, heq⟩
      exact ⟨img, himg, heq⟩
  · rw [hcs]
    rcases foldl_max_mem (images.map PImage.height) 0 with h0 | hmem
    · cases images with
      | nil => exact absurd rfl hne
      | cons a l =>
          refine ⟨a, List.mem_cons_self a l, Nat.le_antisymm ?_ ?_⟩
          · exact mem_le_foldl_max 0 (List.mem_map_of_mem PImage.height
              (List.mem_cons_self a l))
          · rw [h0]; exact Nat.zero_le _
    · rcases List.mem_map.mp hmem with ⟨img, himg, heq⟩
      exact ⟨img, himg, heq⟩
  · intro img
    constructor <;> rfl

/-- C6 witness: three concrete layers of mixed sizes 100x100, 200x150 and
50x50; the canvas is 200x150 (spec section 8 example scenario). -/
theorem calculate_canvas_size_max_c6_witness :
    let mk : Nat → Nat → PImage := fun w h => ⟨PMode.RGB, w, h, fun _ _ => ⟨0, 0, 0, 255⟩⟩
    let images := [mk 100 100, mk 200 150, mk 50 50]
    calculate_canvas_size images = (200, 150)
    ∧ (∀ img ∈ images, img.width ≤ (calculate_canvas_size images).1
        ∧ img.height ≤ (calculate_canvas_size images).2) := by
  intro mk images
  exact ⟨rfl, (calculate_canvas_size_max_c6 images (by simp [images])).1⟩

/- Inside the pasted rectangle, `paste` blends the image sample over the
   canvas sample. -/
theorem paste_pix_inside (canvas img : PImage) (x y u v : Nat)
    (hu : u < img.width) (hv : v < img.height) :
    (PImage.paste canvas img (x : Int) (y : Int)).pix (x + u) (y + v)
      = pasteBlend (canvas.pix (x + u) (y + v)) (img.pix u v) := by
  have h1 : ((x + u : Nat) : Int) - (x : Int) = (u : Int) := by push_cast; ring
  have h2 : ((y + v : Nat) : Int) - (y : Int) = (v : Int) := by push_cast; ring
  simp only [PImage.paste, h1, h2]
  rw [if_pos]
  · simp
  · refine ⟨by positivity, by exact_mod_cast hu, by positivity, by exact_mod_cast hv⟩

/- Outside the pasted rectangle, `paste` leaves the canvas sample. -/
theorem paste_pix_outside (canvas img : PImage) (x y p q : Nat)
    (h : p < x ∨ x + img.width ≤ p ∨ q < y ∨ y + img.height ≤ q) :
    (PImage.paste canvas img (x : Int) (y : Int)).pix p q = canvas.pix p q := by
  simp only [PImage.paste]
  rw [if_neg]
  intro hcond
  obtain ⟨h1, h2, h3, h4⟩ := hcond
  omega

/-- C7: `resize_image_to_canvas` places the layer raster with its top-left
corner at `((canvas_w - w) // 2, (canvas_h - h) // 2)` — inside that
rectangle the result sample is the image sample pasted over the
transparent canvas (exactly the image sample wherever the image is fully
opaque) — and every sample outside the pasted rectangle is the fully
transparent fill `(0, 0, 0, 0)`. -/
theorem resize_image_centers_c7 (image : PImage) (cw ch : Nat)
    (hm : image.mode = PMode.RGBA) (hw : image.width ≤ cw) (hh : image.height ≤ ch) :
    (resize_image_to_canvas image cw ch).width = cw
    ∧ (resize_image_to_canvas image cw ch).height = ch
    ∧ (∀ u v, u < image.width → v < image.height →
        (resize_image_to_canvas image cw ch).pix ((cw - image.width) / 2 + u)
            ((ch - image.height) / 2 + v)
          = pasteBlend ⟨0, 0, 0, 0⟩ (image.pix u v))
    ∧ (∀ u v, u < image.width → v < image.height → (image.pix u v).a = 255 →
        (resize_image_to_canvas image cw ch).pix ((cw - image.width) / 2 + u)
            ((ch - image.height) / 2 + v) = image.pix u v)
    ∧ (∀ p q, (p < (cw - image.width) / 2
            ∨ (cw - image.width) / 2 + image.width ≤ p
            ∨ q < (ch - image.height) / 2
            ∨ (ch - image.height) / 2 + image.height ≤ q) →
        (resize_image_to_canvas image cw ch).pix p q = ⟨0, 0, 0, 0⟩) := by
  have hX : Int.fdiv ((cw : Int) - (image.width : Int)) 2
      = (((cw - image.width) / 2 : Nat) : Int) := by
    have hc : ((cw : Int) - (image.width : Int)) = ((cw - image.width : Nat) : Int) := by
      omega
    rw [hc]
    exact_mod_cast (Int.ofNat_fdiv (cw - image.width) 2).symm
  have hY : Int.fdiv ((ch : Int) - (image.height : Int)) 2
      = (((ch - image.height) / 2 : Nat) : Int) := by
    have hc : ((ch : Int) - (image.height : Int)) = ((ch - image.height : Nat) : Int) := by
      omega
    rw [hc]
    exact_mod_cast (Int.ofNat_fdiv (ch - image.height) 2).symm
  have hR : resize_image_to_canvas image cw ch
      = PImage.paste (PImage.new PMode.RGBA cw ch ⟨0, 0, 0, 0⟩) image
          (((cw - image.width) / 2 : Nat) : Int) (((ch - image.height) / 2 : Nat) : Int) := by
    simp [resize_image_to_canvas, hm, hX, hY]
  refine ⟨by rw [hR]; rfl, by rw [hR]; rfl, ?_, ?_, ?_⟩
  · intro u v hu hv
    rw [hR, paste_pix_inside _ _ _ _ _ _ hu hv]
    rfl
  · intro u v hu hv ha
    rw [hR, paste_pix_inside _ _ _ _ _ _ hu hv]
    exact pasteBlend_opaque _ _ ha
  · intro p q hpq
    rw [hR, paste_pix_outside _ _ _ _ _ _ hpq]
    rfl

/- A concrete fully opaque 2x1 raster used by the C7 witness. -/
def c7img : PImage := ⟨PMode.RGBA, 2, 1, fun _ _ => ⟨9, 8, 7, 255⟩⟩

/-- C7 witness: the 2x1 fully opaque raster `c7img` centered on a 4x3
canvas sits at offset (1, 1) and the rest of the canvas is fully
transparent. -/
theorem resize_image_centers_c7_witness :
    (resize_image_to_canvas c7img 4 3).width = 4
    ∧ (resize_image_to_canvas c7img 4 3).height = 3
    ∧ (∀ u v, u < c7img.width → v < c7img.height → (c7img.pix u v).a = 255 →
        (resize_image_to_canvas c7img 4 3).pix (1 + u) (1 + v) = c7img.pix u v)
    ∧ (∀ p q, (p < 1 ∨ 1 + c7img.width ≤ p ∨ q < 1 ∨ 1 + c7img.height ≤ q) →
        (resize_image_to_canvas c7img 4 3).pix p q = ⟨0, 0, 0, 0⟩) := by
  have h := resize_image_centers_c7 c7img 4 3 rfl (by decide) (by decide)
  exact ⟨h.1, h.2.1, h.2.2.2.1, h.2.2.2.2⟩

/- Little-endian decimal digits of `n`, with explicit fuel (any fuel of at
   least `n` is exact).  This realises the Python decimal formatting. -/
def toDigitsRev (fuel n : Nat) : List Nat :=
  match fuel with
  | 0 => []
  | f + 1 => if n = 0 then [] else n % 10 :: toDigitsRev f (n / 10)

/- Value of a little-endian decimal digit list. -/
def fromDigitsRev : List Nat → Nat
  | [] => 0
  | d :: ds => d + 10 * fromDigitsRev ds

theorem fromDigitsRev_toDigitsRev (fuel n : Nat) (h : n ≤ fuel) :
    fromDigitsRev (toDigitsRev fuel n) = n := by
  induction fuel generalizing n with
  | zero =>
      have : n = 0 := Nat.le_zero.mp h
      subst this
      rfl
  | succ f ih =>
      by_cases h0 : n = 0
      · subst h0; rfl
      · have hdiv : n / 10 < n := Nat.div_lt_self (Nat.pos_of_ne_zero h0) (by norm_num)
        have hle : n / 10 ≤ f := by omega
        simp only [toDigitsRev, h0, if_false, fromDigitsRev, ih (n / 10) hle]
        omega

theorem toDigitsRev_lt_ten (fuel n : Nat) : ∀ d ∈ toDigitsRev fuel n, d < 10 := by
  induction fuel generalizing n with
  | zero => intro d hd; cases hd
  | succ f ih =>
      intro d hd
      by_cases h0 : n = 0
      · subst h0; cases hd
      · simp only [toDigitsRev, h0, if_false] at hd
        rcases List.mem_cons.mp hd with h | h
        · subst h; exact Nat.mod_lt n (by norm_num)
        · exact ih (n / 10) d h

/- The character of one decimal digit. -/
def decChar (d : Nat) : Char := Char.ofNat (48 + d)

/- Inverse of `decChar` on decimal digits. -/
def charToDigit (c : Char) : Nat := c.toNat - 48

theorem charToDigit_decChar (d : Nat) (h : d < 10) : charToDigit (decChar d) = d := by
  interval_cases d <;> rfl

/- Decimal representation of `n` (big-endian character list). -/
def decStr (n : Nat) : List Char := ((toDigitsRev n n).map decChar).reverse

/- The Python format of n with padding code 03d: the decimal
   representation zero-padded on the left to at least three characters. -/
def pad3 (n : Nat) : String :=
  ⟨List.replicate (3 - (decStr n).length) '0' ++ decStr n⟩

/- Decode a zero-padded decimal string back to its value. -/
def decodePad (s : String) : Nat :=
  fromDigitsRev (s.data.reverse.map charToDigit)

theorem fromDigitsRev_append_zeros (l : List Nat) (k : Nat) :
    fromDigitsRev (l ++ List.replicate k 0) = fromDigitsRev l := by
  induction l with
  | nil =>
      induction k with
      | zero => rfl
      | succ k ihk => simpa [fromDigitsRev] using ihk
  | cons d ds ih => simp [fromDigitsRev, ih]

theorem decodePad_pad3 (n : Nat) : decodePad (pad3 n) = n := by
  unfold decodePad pad3 decStr
  simp only [List.reverse_append, List.reverse_replicate, List.reverse_reverse,
    List.map_append, List.map_map, List.map_replicate]
  have h0 : charToDigit '0' = 0 := rfl
  have hmap : (toDigitsRev n n).map (charToDigit ∘ decChar) = toDigitsRev n n := by
    rw [List.map_congr_left, List.map_id]
    intro d hd
    exact charToDigit_decChar d (toDigitsRev_lt_ten n n d hd)
  rw [h0, hmap, fromDigitsRev_append_zeros, fromDigitsRev_toDigitsRev n n (Nat.le_refl n)]

theorem pad3_injective {m n : Nat} (h : pad3 m = pad3 n) : m = n := by
  have := congrArg decodePad h
  simpa [decodePad_pad3] using this

theorem pad3_length (n : Nat) : 3 ≤ (pad3 n).data.length := by
  show 3 ≤ (List.replicate (3 - (decStr n).length) '0' ++ decStr n).length
  rw [List.length_append, List.length_replicate]
  omega

/- `os.path.join(output_dir, filename)` for a directory without a trailing
   separator. -/
def joinPath (d f : String) : String := d ++ "/" ++ f

/- The candidate filename tried by `generate_unique_filename` at a given
   counter (`utils/apz_psd_tools_utility.py`): the original filename for
   counter 1, and name, underscore, three-digit padded counter, ext
   afterwards. -/
def uniqueName (name ext : String) (counter : Nat) : String :=
  if counter = 1 then name ++ ext else name ++ "_" ++ pad3 counter ++ ext

/- The candidate full path tried at a given counter. -/
def candPath (output_dir name ext : String) (counter : Nat) : String :=
  joinPath output_dir (uniqueName name ext counter)

theorem candPath_injective (d n e : String) {i j : Nat}
    (h : candPath d n e i = candPath d n e j) : i = j := by
  by_cases hi1 : i = 1 <;> by_cases hj1 : j = 1
  · rw [hi1, hj1]
  · exfalso
    have hl := congrArg String.length h
    simp only [candPath, joinPath, uniqueName, hi1, hj1, if_true, if_false,
      String.length_append] at hl
    have h3 := pad3_length j
    have : (pad3 j).length = (pad3 j).data.length := rfl
    omega
  · exfalso
    have hl := congrArg String.length h
    simp only [candPath, joinPath, uniqueName, hi1, hj1, if_true, if_false,
      String.length_append] at hl
    have h3 := pad3_length i
    have : (pad3 i).length = (pad3 i).data.length := rfl
    omega
  · have hd := congrArg String.data h
    simp only [candPath, joinPath, uniqueName, hi1, hj1, if_false,
      String.data_append, List.append_assoc] at hd
    have h1 := List.append_cancel_left hd
    have h2 := List.append_cancel_left h1
    have h3 := List.append_cancel_left h2
    have h4 := List.append_cancel_left h3
    have h5 := List.append_cancel_right h4
    exact pad3_injective (by cases pi : pad3 i; cases pj : pad3 j; simp_all)

/- One cell of the `while True` search in `generate_unique_filename`,
   with explicit fuel.  The Python loop runs unboundedly; the lemmas below
   show `fs.length + 1` probes always suffice. -/
def genUniqueAux (fs : List String) (output_dir name ext : String) :
    Nat → Nat → Option String
  | 0, _ => none
  | fuel + 1, counter =>
      if fs.contains (candPath output_dir name ext counter) then
        genUniqueAux fs output_dir name ext fuel (counter + 1)
      else some (candPath output_dir name ext counter)

/- `generate_unique_filename(base_path, output_dir)` from
   `utils/apz_psd_tools_utility.py`, after
   `name, ext = os.path.splitext(os.path.basename(base_path))` — the nodes
   always pass the prefix followed by a .psd suffix, so `name` is the
   prefix and `ext` is `".psd"`.  The filesystem is the list `fs` of
   existing paths; the fuel `fs.length + 1` is proved sufficient below. -/
def generate_unique_filename (fs : List String) (name ext output_dir : String) : String :=
  (genUniqueAux fs output_dir name ext (fs.length + 1) 1).getD
    (candPath output_dir name ext 1)

theorem genUniqueAux_spec (fs : List String) (d n e : String) (fuel : Nat) :
    ∀ c, (∃ k, k < fuel ∧ candPath d n e (c + k) ∉ fs) →
    ∃ m, genUniqueAux fs d n e fuel c = some (candPath d n e m)
      ∧ c ≤ m ∧ candPath d n e m ∉ fs
      ∧ ∀ j, c ≤ j → j < m → candPath d n e j ∈ fs := by
  induction fuel with
  | zero =>
      intro c hfree
      obtain ⟨k, hk, _⟩ := hfree
      omega
  | succ f ih =>
      intro c hfree
      by_cases hc : fs.contains (candPath d n e c)
      · have hmem : candPath d n e c ∈ fs := List.elem_iff.mp hc
        obtain ⟨k, hk, hkfree⟩ := hfree
        have hk0 : k ≠ 0 := by
          rintro rfl
          exact hkfree (by simpa using hmem)
        obtain ⟨m, hm, hcm, hfree2, hleast⟩ := ih (c + 1)
          ⟨k - 1, by omega, by
            have : (c + 1) + (k - 1) = c + k := by omega
            rw [this]; exact hkfree⟩
        refine ⟨m, ?_, by omega, hfree2, ?_⟩
        · simp only [genUniqueAux, hc, if_true]
          exact hm
        · intro j hj1 hj2
          rcases Nat.eq_or_lt_of_le hj1 with hje | hjl
          · rw [← hje]; exact hmem
          · exact hleast j hjl hj2
      · refine ⟨c, ?_, Nat.le_refl c, ?_, ?_⟩
        · show (if fs.contains (candPath d n e c) then genUniqueAux fs d n e f (c + 1)
              else some (candPath d n e c)) = some (candPath d n e c)
          rw [if_neg hc]
        · intro habs
          exact hc (List.elem_iff.mpr habs)
        · intro j h1 h2
          omega

/- Pigeonhole: among `fs.length + 1` pairwise distinct candidate paths at
   least one is not in `fs`. -/
theorem exists_free_candidate (fs : List String) (d n e : String) :
    ∃ k, k < fs.length + 1 ∧ candPath d n e (1 + k) ∉ fs := by
  by_contra hall
  push_neg at hall
  have hnodup : ((List.range (fs.length + 1)).map (fun k => candPath d n e (1 + k))).Nodup := by
    refine List.Nodup.map_on ?_ (List.nodup_range _)
    intro x hx y hy hxy
    have := candPath_injective d n e (i := 1 + x) (j := 1 + y) hxy
    omega
  have hsub : ((List.range (fs.length + 1)).map (fun k => candPath d n e (1 + k))) ⊆ fs := by
    intro s hs
    rcases List.mem_map.mp hs with ⟨k, hk, rfl⟩
    exact hall k (List.mem_range.mp hk)
  have hlen := List.Subperm.length_le (List.subperm_of_subset hnodup hsub)
  simp only [List.length_map, List.length_range] at hlen
  omega

theorem candPath_one (d n e : String) : candPath d n e 1 = joinPath d (n ++ e) := by
  simp [candPath, uniqueName]

theorem candPath_ge_two (d n e : String) {j : Nat} (hj : 2 ≤ j) :
    candPath d n e j = joinPath d (n ++ "_" ++ pad3 j ++ e) := by
  have : j ≠ 1 := by omega
  simp [candPath, uniqueName, this]

/- The search always halts within `fs.length + 1` probes and returns the
   candidate of the least counter whose path is not yet on disk. -/
theorem genUnique_main (fs : List String) (d n e : String) :
    ∃ m, 1 ≤ m
      ∧ genUniqueAux fs d n e (fs.length + 1) 1 = some (candPath d n e m)
      ∧ generate_unique_filename fs n e d = candPath d n e m
      ∧ candPath d n e m ∉ fs
      ∧ ∀ j, 1 ≤ j → j < m → candPath d n e j ∈ fs := by
  obtain ⟨k, hk, hfree⟩ := exists_free_candidate fs d n e
  obtain ⟨m, hm, h1m, hfree2, hleast⟩ :=
    genUniqueAux_spec fs d n e (fs.length + 1) 1 ⟨k, hk, hfree⟩
  exact ⟨m, h1m, hm, by simp [generate_unique_filename, hm], hfree2, hleast⟩

/- The generated path never collides with an existing one. -/
theorem generate_unique_filename_not_mem (fs : List String) (n e d : String) :
    generate_unique_filename fs n e d ∉ fs := by
  obtain ⟨m, _, _, heq, hfree, _⟩ := genUnique_main fs d n e
  rw [heq]
  exact hfree

/-- C10: for every base filename (split as `name`/`ext`), output directory
and finite set of already-existing paths, `generate_unique_filename`
terminates — the unbounded `while True` search succeeds within
`fs.length + 1` probes — and the returned path is not a member of the
existing set, so a subsequent write never overwrites an existing file. -/
theorem generate_unique_filename_terminates_c10
    (fs : List String) (name ext output_dir : String) :
    (genUniqueAux fs output_dir name ext (fs.length + 1) 1).isSome = true
    ∧ generate_unique_filename fs name ext output_dir ∉ fs := by
  obtain ⟨m, _, hm, heq, hfree, _⟩ := genUnique_main fs output_dir name ext
  refine ⟨by rw [hm]; rfl, by rw [heq]; exact hfree⟩

/-- C4: `generate_unique_filename` returns name.psd when that path does
not exist yet; otherwise it returns the first free path in the sequence of
zero-padded suffixes name_NNN.psd (NNN incrementing from 002, every
earlier suffix being taken); and two successive non-overwrite saves with
the same prefix and directory produce two distinct paths, both present in
the filesystem afterward. -/
theorem generate_unique_filename_sequence_c4 (fs : List String) (dir pre : String) :
    (joinPath dir (pre ++ ".psd") ∉ fs →
        generate_unique_filename fs pre ".psd" dir = joinPath dir (pre ++ ".psd"))
    ∧ (joinPath dir (pre ++ ".psd") ∈ fs →
        ∃ n, 2 ≤ n
          ∧ generate_unique_filename fs pre ".psd" dir
              = joinPath dir (pre ++ "_" ++ pad3 n ++ ".psd")
          ∧ generate_unique_filename fs pre ".psd" dir ∉ fs
          ∧ ∀ j, 2 ≤ j → j < n →
              joinPath dir (pre ++ "_" ++ pad3 j ++ ".psd") ∈ fs)
    ∧ (generate_unique_filename fs pre ".psd" dir
        ≠ generate_unique_filename
            (generate_unique_filename fs pre ".psd" dir :: fs) pre ".psd" dir
      ∧ generate_unique_filename fs pre ".psd" dir
          ∈ generate_unique_filename
              (generate_unique_filename fs pre ".psd" dir :: fs) pre ".psd" dir
            :: generate_unique_filename fs pre ".psd" dir :: fs
      ∧ generate_unique_filename
            (generate_unique_filename fs pre ".psd" dir :: fs) pre ".psd" dir
          ∈ generate_unique_filename
              (generate_unique_filename fs pre ".psd" dir :: fs) pre ".psd" dir
            :: generate_unique_filename fs pre ".psd" dir :: fs) := by
  obtain ⟨m, h1m, hm, heq, hfree, hleast⟩ := genUnique_main fs dir pre ".psd"
  refine ⟨?_, ?_, ?_, ?_, ?_⟩
  · intro hbase
    by_cases hm1 : m = 1
    · rw [heq, hm1, candPath_one]
    · exfalso
      have h1 : candPath dir pre ".psd" 1 ∈ fs := hleast 1 (Nat.le_refl 1) (by omega)
      rw [candPath_one] at h1
      exact hbase h1
  · intro hbase
    have hm1 : m ≠ 1 := by
      intro h
      rw [h, candPath_one] at hfree
      exact hfree hbase
    refine ⟨m, by omega, ?_, by rw [heq]; exact hfree, ?_⟩
    · rw [heq, candPath_ge_two dir pre ".psd" (by omega)]
    · intro j hj2 hjm
      have := hleast j (by omega) hjm
      rwa [candPath_ge_two dir pre ".psd" hj2] at this
  · intro habs
    have h2 := generate_unique_filename_not_mem
      (generate_unique_filename fs pre ".psd" dir :: fs) pre ".psd" dir
    rw [← habs] at h2
    exact h2 (List.mem_cons_self _ _)
  · exact List.mem_cons_of_mem _ (List.mem_cons_self _ _)
  · exact List.mem_cons_self _ _

/-- C4 witness: with `out/p.psd` and `out/p_002.psd` already on disk, the
generator skips to `out/p_003.psd`; on an empty filesystem it returns the
bare `out/p.psd`. -/
theorem generate_unique_filename_sequence_c4_witness :
    (joinPath "out" ("p" ++ ".psd") ∉ ([] : List String)
      ∧ generate_unique_filename [] "p" ".psd" "out" = joinPath "out" ("p" ++ ".psd"))
    ∧ (joinPath "out" ("p" ++ ".psd") ∈ ["out/p.psd", "out/p_002.psd"]
      ∧ ∃ n, 2 ≤ n
          ∧ generate_unique_filename ["out/p.psd", "out/p_002.psd"] "p" ".psd" "out"
              = joinPath "out" ("p" ++ "_" ++ pad3 n ++ ".psd")
          ∧ generate_unique_filename ["out/p.psd", "out/p_002.psd"] "p" ".psd" "out"
              ∉ ["out/p.psd", "out/p_002.psd"]
          ∧ ∀ j, 2 ≤ j → j < n →
              joinPath "out" ("p" ++ "_" ++ pad3 j ++ ".psd")
                ∈ ["out/p.psd", "out/p_002.psd"]) := by
  constructor
  · exact ⟨by decide,
      (generate_unique_filename_sequence_c4 [] "out" "p").1 (by decide)⟩
  · exact ⟨by decide,
      (generate_unique_filename_sequence_c4 ["out/p.psd", "out/p_002.psd"] "out" "p").2.1
        (by decide)⟩

/- The numbered-suffix loop at the end of `_handle_overwrite_mode` in
   `nodes/apzPSDLayerSaverMultilayer.py`: probe prefix_NNN.psd
   from counter 1, and give up to the base path once the counter would pass
   the 999 safety limit.  The fuel mirrors that limit. -/
def overwriteNumberedLoop (fs : List String) (output_dir pre : String) :
    Nat → Nat → String
  | 0, _ => joinPath output_dir (pre ++ ".psd")
  | fuel + 1, counter =>
      if fs.contains (joinPath output_dir (pre ++ "_" ++ pad3 counter ++ ".psd")) then
        if counter + 1 > 999 then joinPath output_dir (pre ++ ".psd")
        else overwriteNumberedLoop fs output_dir pre fuel (counter + 1)
      else joinPath output_dir (pre ++ "_" ++ pad3 counter ++ ".psd")

/- `_handle_overwrite_mode` from `nodes/apzPSDLayerSaverMultilayer.py`.
   `timestamp` stands for `datetime.now().strftime("%Y%m%d_%H%M%S")`,
   supplied as an ambient input. -/
def handle_overwrite_mode (fs : List String)
    (output_dir pre overwrite_mode timestamp : String) : String :=
  if overwrite_mode = "true" then joinPath output_dir (pre ++ ".psd")
  else if fs.contains (joinPath output_dir (pre ++ ".psd")) = false then
    joinPath output_dir (pre ++ ".psd")
  else if fs.contains (joinPath output_dir (pre ++ "_" ++ timestamp ++ ".psd")) = false then
    joinPath output_dir (pre ++ "_" ++ timestamp ++ ".psd")
  else overwriteNumberedLoop fs output_dir pre 999 1

/- `save_psd_layers` of `APZmediaPSDLayerSaverMultilayer`
   (`nodes/apzPSDLayerSaverMultilayer.py`), restricted to its file-naming
   behaviour on a successful save: the node computes
   `final_output_path = self._handle_overwrite_mode(...)` but never uses
   it — exactly as in the source — and then calls `process_layers_to_psd`
   with the raw `output_dir`/`filename_prefix`, which always saves to the
   path produced by `generate_unique_filename`.  The returned list is the
   filesystem with the newly written file added. -/
def multilayer_save_psd_layers (fs : List String)
    (output_dir pre overwrite_mode timestamp : String) : String × List String :=
  let _final_output_path := handle_overwrite_mode fs output_dir pre overwrite_mode timestamp
  let output_path := generate_unique_filename fs pre ".psd" output_dir
  (output_path, output_path :: fs)

/-- C1 (refuting evaluation): two multilayer saves with
`overwrite_mode = "true"` and identical `output_dir`/`filename_prefix` do
NOT reuse one path.  The first call writes `./output/output.psd`; the
second call writes `./output/output_002.psd`, even though
`_handle_overwrite_mode` (whose result the node discards) selects the base
path `./output/output.psd` for it.  The claim requires both calls to
target the base path. -/
theorem multilayer_overwrite_bug_c1 :
    (multilayer_save_psd_layers [] "./output" "output" "true" "20250101_000000").1
      = "./output/output.psd"
    ∧ handle_overwrite_mode
        (multilayer_save_psd_layers [] "./output" "output" "true" "20250101_000000").2
        "./output" "output" "true" "20250101_000000" = "./output/output.psd"
    ∧ (multilayer_save_psd_layers
        (multilayer_save_psd_layers [] "./output" "output" "true" "20250101_000000").2
        "./output" "output" "true" "20250101_000000").1 = "./output/output_002.psd"
    ∧ (multilayer_save_psd_layers [] "./output" "output" "true" "20250101_000000").1
      ≠ (multilayer_save_psd_layers
          (multilayer_save_psd_layers [] "./output" "output" "true" "20250101_000000").2
          "./output" "output" "true" "20250101_000000").1 := by
  refine ⟨by decide, by decide, by decide, by decide⟩

/- A PyTorch tensor: dtype flag, shape, and a total value function indexed
   by coordinate lists (out-of-range indices are irrelevant to the
   embedded code, which only reads in-shape coordinates). -/
structure Tensor where
  isFloat : Bool
  shape : List Nat
  val : List Nat → ℚ

/- `tensor.permute(0, 2, 3, 1)` on a 4D tensor. -/
def permute0231 (t : Tensor) : Tensor :=
  { t with
    shape := match t.shape with
      | [a, b, c, d] => [a, c, d, b]
      | s => s,
    val := fun idx => match idx with
      | [i, j, k, l] => t.val [i, l, j, k]
      | idx => t.val idx }

/- `torch.clamp(x, 0.0, 1.0)`. -/
def clamp01 (q : ℚ) : ℚ := min 1 (max 0 q)

/- The float path of the 8-bit conversion: clamp to [0,1], scale by 255,
   truncate to an unsigned 8-bit value (`(img * 255).type(torch.uint8)`). -/
def toU8f (q : ℚ) : Nat := (⌊clamp01 q * 255⌋).toNat

/- The integer path: `.type(torch.uint8)` wraps modulo 256. -/
def toU8i (q : ℚ) : Nat := (⌊q⌋ % 256).toNat

/- `tensor_to_pil_image` from `utils/apz_psd_tools_utility.py`: permute to
   channel-last when the tensor is 4D with second dimension 1, 3 or 4, take
   the first batch item, clamp/scale floats to 8-bit, then fix the channel
   count (replicate 1 channel, drop a 4th, truncate above 3, zero-pad
   below 3) to yield an RGB raster. -/
def tensor_to_pil_image (t : Tensor) : PImage :=
  let t1 := match t.shape with
    | [_, c, _, _] => if c = 1 ∨ c = 3 ∨ c = 4 then permute0231 t else t
    | _ => t
  let u8 : ℚ → Nat := if t1.isFloat then toU8f else toU8i
  match t1.shape with
  | [_, h, w, c] =>
      let sample : Nat → Nat → Nat → Nat := fun y x ch => u8 (t1.val [0, y, x, ch])
      if c = 1 then
        ⟨PMode.RGB, w, h, fun x y => let g := sample y x 0; ⟨g, g, g, 255⟩⟩
      else if c = 3 then
        ⟨PMode.RGB, w, h, fun x y => ⟨sample y x 0, sample y x 1, sample y x 2, 255⟩⟩
      else if c = 4 then
        ⟨PMode.RGB, w, h, fun x y => ⟨sample y x 0, sample y x 1, sample y x 2, 255⟩⟩
      else if 3 < c then
        ⟨PMode.RGB, w, h, fun x y => ⟨sample y x 0, sample y x 1, sample y x 2, 255⟩⟩
      else if c = 2 then
        ⟨PMode.RGB, w, h, fun x y => ⟨sample y x 0, sample y x 1, 0, 255⟩⟩
      else
        ⟨PMode.RGB, w, h, fun _ _ => ⟨0, 0, 0, 255⟩⟩
  | _ => ⟨PMode.RGB, 0, 0, fun _ _ => ⟨0, 0, 0, 255⟩⟩

theorem toU8f_le_255 (q : ℚ) : toU8f q ≤ 255 := by
  have h1 : clamp01 q ≤ 1 := min_le_left 1 (max 0 q)
  have h2 : clamp01 q * 255 ≤ 255 := by nlinarith
  have h3 : (⌊clamp01 q * 255⌋ : Int) ≤ 255 := by
    have := Int.floor_le_floor h2
    simpa using this
  unfold toU8f
  omega

theorem toU8f_sat_one (q : ℚ) (h : 1 ≤ q) : toU8f q = 255 := by
  have h1 : clamp01 q = 1 := by
    unfold clamp01
    have : (1 : ℚ) ≤ max 0 q := le_trans h (le_max_right 0 q)
    simp [min_eq_left this]
  simp [toU8f, h1]

theorem toU8f_sat_zero (q : ℚ) (h : q ≤ 0) : toU8f q = 0 := by
  have h1 : clamp01 q = 0 := by
    unfold clamp01
    have : max 0 q = 0 := max_eq_left h
    simp [this]
  simp [toU8f, h1]

/- A channel-last [B, H, W, 3] float tensor whose height is 3: the
   permutation test `shape[1] in [1, 3, 4]` fires on it. -/
def c8tensor : Tensor := ⟨true, [1, 3, 2, 3], fun _ => 0⟩

/-- C8 counterexample: the claim says a channel-last [B, H, W, 3] buffer is
never permuted, so converting `c8tensor` (B=1, H=3, W=2, C=3) would have to
give a 3-high, 2-wide raster; the code instead permutes (because
`shape[1] = 3`) and produces a 2-high, 3-wide raster. -/
theorem tensor_to_pil_image_c8_counterexample :
    c8tensor.shape = [1, 3, 2, 3]
    ∧ (tensor_to_pil_image c8tensor).height = 2
    ∧ (tensor_to_pil_image c8tensor).width = 3
    ∧ ¬((tensor_to_pil_image c8tensor).height = 3
        ∧ (tensor_to_pil_image c8tensor).width = 2) := by
  refine ⟨rfl, rfl, rfl, by decide⟩

/-- C8 (amended): `tensor_to_pil_image` selects the first batch item,
permutes to channel-last exactly when the tensor is 4D and its second
dimension is 1, 3 or 4 (this matches channel-first buffers, but also fires
on channel-last buffers whose height is 1, 3 or 4); floats are clamped to
[0,1] then scaled/truncated to 8-bit; one channel is replicated to three
and a 4th channel is dropped; the result is an H x W x 3 8-bit raster.  A
channel-last [B, H, W, 3] buffer is left unpermuted provided its height is
not 1, 3 or 4. -/
theorem tensor_to_pil_image_normalizer_c8 (t : Tensor) :
    (∀ b h w, t.shape = [b, h, w, 3] → t.isFloat = true →
        h ≠ 1 → h ≠ 3 → h ≠ 4 →
        (tensor_to_pil_image t).width = w
        ∧ (tensor_to_pil_image t).height = h
        ∧ ∀ x y, (tensor_to_pil_image t).pix x y
            = ⟨toU8f (t.val [0, y, x, 0]), toU8f (t.val [0, y, x, 1]),
               toU8f (t.val [0, y, x, 2]), 255⟩)
    ∧ (∀ b h w, t.shape = [b, 3, h, w] → t.isFloat = true →
        (tensor_to_pil_image t).width = w
        ∧ (tensor_to_pil_image t).height = h
        ∧ ∀ x y, (tensor_to_pil_image t).pix x y
            = ⟨toU8f (t.val [0, 0, y, x]), toU8f (t.val [0, 1, y, x]),
               toU8f (t.val [0, 2, y, x]), 255⟩)
    ∧ (∀ b h w, t.shape = [b, 1, h, w] → t.isFloat = true →
        (tensor_to_pil_image t).width = w
        ∧ (tensor_to_pil_image t).height = h
        ∧ ∀ x y, (tensor_to_pil_image t).pix x y
            = ⟨toU8f (t.val [0, 0, y, x]), toU8f (t.val [0, 0, y, x]),
               toU8f (t.val [0, 0, y, x]), 255⟩)
    ∧ (∀ b h w, t.shape = [b, 4, h, w] → t.isFloat = true →
        (tensor_to_pil_image t).width = w
        ∧ (tensor_to_pil_image t).height = h
        ∧ ∀ x y, (tensor_to_pil_image t).pix x y
            = ⟨toU8f (t.val [0, 0, y, x]), toU8f (t.val [0, 1, y, x]),
               toU8f (t.val [0, 2, y, x]), 255⟩)
    ∧ (∀ q : ℚ, toU8f q ≤ 255)
    ∧ (∀ q : ℚ, 1 ≤ q → toU8f q = 255)
    ∧ (∀ q : ℚ, q ≤ 0 → toU8f q = 0) := by
  obtain ⟨tf, tsh, tv⟩ := t
  refine ⟨?_, ?_, ?_, ?_, toU8f_le_255, toU8f_sat_one, toU8f_sat_zero⟩
  · intro b h w hsh hf h1 h3 h4
    simp only at hsh
    subst hsh
    simp only at hf
    subst hf
    refine ⟨?_, ?_, fun x y => ?_⟩ <;>
      simp [tensor_to_pil_image, h1, h3, h4]
  · intro b h w hsh hf
    simp only at hsh
    subst hsh
    simp only at hf
    subst hf
    refine ⟨rfl, rfl, fun x y => rfl⟩
  · intro b h w hsh hf
    simp only at hsh
    subst hsh
    simp only at hf
    subst hf
    refine ⟨rfl, rfl, fun x y => rfl⟩
  · intro b h w hsh hf
    simp only at hsh
    subst hsh
    simp only at hf
    subst hf
    refine ⟨rfl, rfl, fun x y => rfl⟩

/- A channel-last [1, 5, 6, 3] float tensor for the C8 witness: its height
   5 is not one of 1, 3, 4, so it is not permuted. -/
def c8wtensor : Tensor := ⟨true, [1, 5, 6, 3], fun _ => 1 / 2⟩

/-- C8 witness: the amended theorem applied to `c8wtensor`. -/
theorem tensor_to_pil_image_normalizer_c8_witness :
    (c8wtensor.shape = [1, 5, 6, 3] ∧ c8wtensor.isFloat = true)
    ∧ ((tensor_to_pil_image c8wtensor).width = 6
       ∧ (tensor_to_pil_image c8wtensor).height = 5
       ∧ ∀ x y, (tensor_to_pil_image c8wtensor).pix x y
           = ⟨toU8f (c8wtensor.val [0, y, x, 0]), toU8f (c8wtensor.val [0, y, x, 1]),
              toU8f (c8wtensor.val [0, y, x, 2]), 255⟩) :=
  ⟨⟨rfl, rfl⟩,
   (tensor_to_pil_image_normalizer_c8 c8wtensor).1 1 5 6 rfl rfl
     (by decide) (by decide) (by decide)⟩

/- A psd-tools pixel layer as far as this code observes it: the composited
   raster and the layer name. -/
structure PsdLayer where
  name : String
  image : PImage

/- The layered document built by `create_psd_from_layers`. -/
structure PsdOut where
  width : Nat
  height : Nat
  background : RGBA
  layerStack : List PsdLayer

/- The effects the save pipeline takes from the host libraries
   (psd-tools, PIL, torch).  The pure content of the tensor-to-image
   conversion is `tensor_to_pil_image` above; here the conversions are
   `Except`-valued because the underlying library calls can raise, and the
   claim under study is about those exceptions. -/
structure PsdEnv where
  psdToolsAvailable : Bool
  resizeImg : PImage → Nat → Nat → PImage
  t2img : Tensor → Except String PImage
  t2mask : Tensor → Except String PImage
  frompil : PImage → String → Except String PsdLayer
  saveOk : String → Bool

/- `check_psd_tools_available` from `utils/apz_psd_tools_utility.py`. -/
def check_psd_tools_available (env : PsdEnv) : Except String Unit :=
  if env.psdToolsAvailable then Except.ok ()
  else Except.error "psd-tools is not installed"

/- `create_simple_psd_layer` from `utils/apz_psd_tools_utility.py`: with a
   mask, convert it to `L`, resize it to the image size if needed, apply it
   via `apply_mask_to_image`, and build the layer; without a mask, ensure
   RGBA and build the layer. -/
def create_simple_psd_layer (env : PsdEnv) (pil_image : PImage)
    (layer_name : String) (pil_mask : Option PImage) : Except String PsdLayer := do
  check_psd_tools_available env
  match pil_mask with
  | some m =>
      let m := if m.mode = PMode.L then m else m.convert PMode.L
      let m :=
        if m.width = pil_image.width ∧ m.height = pil_image.height then m
        else env.resizeImg m pil_image.width pil_image.height
      env.frompil (apply_mask_to_image env.resizeImg pil_image m) layer_name
  | none =>
      let img :=
        if pil_image.mode = PMode.RGBA then pil_image
        else pil_image.convert PMode.RGBA
      env.frompil img layer_name

/- `create_psd_from_layers` from `utils/apz_psd_tools_utility.py`: a new
   document holding the layers appended in reverse order (PSD layers are
   stored bottom-to-top). -/
def create_psd_from_layers (layers : List PsdLayer)
    (canvas_width canvas_height : Nat) (background_color : RGBA) : PsdOut :=
  ⟨canvas_width, canvas_height, background_color, layers.reverse⟩

/- The `try` block of `process_layers_to_psd`
   (`utils/apz_psd_tools_utility.py`): convert every image tensor, compute
   the canvas, convert each mask tensor individually (a failed mask
   conversion is caught per-mask and becomes `none`), build the layers,
   assemble the document, pick the output path with
   `generate_unique_filename`, and save. -/
def process_layers_to_psd_body (env : PsdEnv) (fs : List String)
    (image_tensors : List Tensor) (layer_names : List String)
    (mask_tensors : List (Option Tensor)) (output_dir pre : String) :
    Except String (String × Bool) := do
  check_psd_tools_available env
  let pil_images ← image_tensors.mapM env.t2img
  let canvas := calculate_canvas_size pil_images
  let pil_masks : List (Option PImage) :=
    if mask_tensors.isEmpty then List.replicate pil_images.length none
    else mask_tensors.map (fun mt =>
      match mt with
      | none => none
      | some mtensor =>
          match env.t2mask mtensor with
          | Except.ok m => some m
          | Except.error _ => none)
  let layers ← (pil_images.zip layer_names).enum.mapM (fun p =>
    create_simple_psd_layer env
      (resize_image_to_canvas p.2.1 canvas.1 canvas.2) p.2.2
      (pil_masks.getD p.1 none))
  let _psd := create_psd_from_layers layers canvas.1 canvas.2 ⟨255, 255, 255, 255⟩
  let output_path := generate_unique_filename fs pre ".psd" output_dir
  let success := env.saveOk output_path
  pure (output_path, success)

/- `process_layers_to_psd`: the `try` body above with the outer
   `except Exception` handler, which returns the pair of the empty string
   and False. -/
def process_layers_to_psd (env : PsdEnv) (fs : List String)
    (image_tensors : List Tensor) (layer_names : List String)
    (mask_tensors : List (Option Tensor)) (output_dir pre : String) :
    String × Bool :=
  match process_layers_to_psd_body env fs image_tensors layer_names mask_tensors
      output_dir pre with
  | Except.ok r => r
  | Except.error _ => ("", false)

/- `save_psd_layers` of `APZmediaPSDLayerSaver`
   (`nodes/apzPSDLayerSaver.py`): the whole pytoshop-based `try` body is
   abstracted as an `Except` value; the `except Exception` handler at
   lines 200-204 returns the originally requested `output_path` with
   False. -/
def saver_node_save_psd_layers (output_path : String)
    (body : Except String (String × Bool)) : String × Bool :=
  match body with
  | Except.ok r => r
  | Except.error _ => (output_path, false)

/- A concrete environment whose image conversion raises, used to exhibit
   the error path of `process_layers_to_psd`. -/
def c2env : PsdEnv :=
  { psdToolsAvailable := true
    resizeImg := fun m _ _ => m
    t2img := fun _ => Except.error "conversion failed"
    t2mask := fun _ => Except.error "conversion failed"
    frompil := fun img nm => Except.ok ⟨nm, img⟩
    saveOk := fun _ => true }

/-- C2 counterexample: when an internal conversion exception is caught,
`process_layers_to_psd` — the utility save entry point cited by the claim
— returns the empty string with success = false, not the originally
requested output path `./output.psd`. -/
theorem process_layers_error_c2_counterexample :
    process_layers_to_psd c2env []
        [⟨true, [1, 1, 1, 3], fun _ => 0⟩] ["Layer 1"] [] "." "output"
      = ("", false)
    ∧ joinPath "." ("output" ++ ".psd") = "./output.psd"
    ∧ ("" : String) ≠ "./output.psd" := by
  refine ⟨rfl, by decide, by decide⟩

/-- C2 (amended): on any caught internal exception no save entry point
propagates the exception; the node-level entry `save_psd_layers` of
`APZmediaPSDLayerSaver` returns the originally requested output path with
success = false, while the utility entry `process_layers_to_psd` returns
the empty string (not the requested path) with success = false. -/
theorem save_error_propagation_c2 :
    (∀ (output_path : String) (body : Except String (String × Bool)) (e : String),
        body = Except.error e →
        saver_node_save_psd_layers output_path body = (output_path, false))
    ∧ (∀ (env : PsdEnv) (fs : List String) (image_tensors : List Tensor)
          (layer_names : List String) (mask_tensors : List (Option Tensor))
          (output_dir pre : String) (e : String),
        process_layers_to_psd_body env fs image_tensors layer_names mask_tensors
            output_dir pre = Except.error e →
        process_layers_to_psd env fs image_tensors layer_names mask_tensors
            output_dir pre = ("", false)) := by
  constructor
  · intro output_path body e hb
    rw [hb]
    rfl
  · intro env fs image_tensors layer_names mask_tensors output_dir pre e hb
    unfold process_layers_to_psd
    rw [hb]

/-- C2 witness: the amended theorem applied to a concrete failing body and
to `c2env`, whose conversion raises on the single layer. -/
theorem save_error_propagation_c2_witness :
    saver_node_save_psd_layers "./output.psd" (Except.error "boom") = ("./output.psd", false)
    ∧ process_layers_to_psd c2env ["x"]
        [⟨true, [1, 1, 1, 3], fun _ => 0⟩] ["Layer 1"] [] "." "p" = ("", false) :=
  ⟨save_error_propagation_c2.1 "./output.psd" (Except.error "boom") "boom" rfl,
   save_error_propagation_c2.2 c2env ["x"] [⟨true, [1, 1, 1, 3], fun _ => 0⟩]
     ["Layer 1"] [] "." "p" "conversion failed" rfl⟩

/- One layer record of an opened PSD, as far as the loader observes it:
   the name, whether it is a flat pixel layer, and whether a mask channel
   is recorded. -/
structure LayerRec where
  name : String
  isPixel : Bool
  hasMask : Bool
deriving DecidableEq, Repr

/- An opened PSD document (psd-tools `PSDImage`). -/
structure PsdDocM where
  width : Nat
  height : Nat
  color_mode : String
  layers : List LayerRec
deriving DecidableEq, Repr

/- The Python exceptions the loader path can raise, as kind plus
   message. -/
inductive PyExc where
  | importError (msg : String)
  | fileNotFound (msg : String)
  | valueError (msg : String)
  | exn (msg : String)
deriving DecidableEq, Repr

/- The effects the loader takes from the host libraries: the filesystem,
   the psd-tools parser, and the per-layer raster/mask decoders (each
   already wrapped by the per-function try/except of
   `extract_layer_image`/`extract_layer_mask`, hence `Option`). -/
structure LoaderEnv where
  psdToolsAvailable : Bool
  fs : List String
  parsePsd : String → Except String PsdDocM
  topil : PsdDocM → Nat → Option PImage
  maskpil : PsdDocM → Nat → Option PImage

/- `load_psd_file` from `utils/apz_psd_loader_utility.py`: missing
   dependency raises ImportError; an absent file raises FileNotFoundError;
   a parse failure is re-raised as a generic Exception wrapping the
   underlying message; otherwise the document is returned. -/
def load_psd_file (env : LoaderEnv) (filepath : String) : Except PyExc PsdDocM :=
  if env.psdToolsAvailable = false then
    Except.error (PyExc.importError "psd-tools is not installed")
  else if env.fs.contains filepath = false then
    Except.error (PyExc.fileNotFound ("PSD file not found: " ++ filepath))
  else
    match env.parsePsd filepath with
    | Except.ok psd => Except.ok psd
    | Except.error e =>
        Except.error (PyExc.exn ("Error loading PSD file " ++ filepath ++ ": " ++ e))

/- `get_psd_info` from `utils/apz_psd_loader_utility.py`. -/
structure PsdInfo where
  width : Nat
  height : Nat
  color_mode : String
  layer_count : Nat
  layer_names : List String
deriving DecidableEq, Repr

def get_psd_info (psd : PsdDocM) : PsdInfo :=
  ⟨psd.width, psd.height, psd.color_mode, psd.layers.length,
   psd.layers.map LayerRec.name⟩

/-- C9: with the dependency available, `load_psd_file` raises a
FileNotFoundError exactly when the path is not on the filesystem; when the
file exists but parsing fails it raises a generic exception wrapping the
underlying parse message; and on a valid existing PSD it returns the
document without error. -/
theorem load_psd_file_errors_c9 (env : LoaderEnv) (filepath : String)
    (havail : env.psdToolsAvailable = true) :
    ((∃ m, load_psd_file env filepath = Except.error (PyExc.fileNotFound m))
        ↔ env.fs.contains filepath = false)
    ∧ (∀ e, env.fs.contains filepath = true → env.parsePsd filepath = Except.error e →
        load_psd_file env filepath
          = Except.error (PyExc.exn ("Error loading PSD file " ++ filepath ++ ": " ++ e)))
    ∧ (∀ d, env.fs.contains filepath = true → env.parsePsd filepath = Except.ok d →
        load_psd_file env filepath = Except.ok d) := by
  refine ⟨⟨?_, ?_⟩, ?_, ?_⟩
  · intro ⟨m, hm⟩
    by_contra hcon
    have hc : env.fs.contains filepath = true := by
      cases h : env.fs.contains filepath
      · exact absurd h hcon
      · rfl
    rw [load_psd_file, havail, hc] at hm
    simp only [Bool.true_eq_false, if_false] at hm
    cases hp : env.parsePsd filepath <;> rw [hp] at hm <;> simp at hm
  · intro hc
    refine ⟨"PSD file not found: " ++ filepath, ?_⟩
    rw [load_psd_file, havail, hc]
    rfl
  · intro e hc hp
    rw [load_psd_file, havail, hc, hp]
    rfl
  · intro d hc hp
    rw [load_psd_file, havail, hc, hp]
    rfl

/- A concrete loader environment for witnesses: one parseable document at
   path a.psd. -/
def c9doc : PsdDocM := ⟨100, 50, "RGB", [⟨"Layer 1", true, false⟩]⟩

def c9env : LoaderEnv :=
  { psdToolsAvailable := true
    fs := ["a.psd"]
    parsePsd := fun p => if p = "a.psd" then Except.ok c9doc else Except.error "bad header"
    topil := fun _ _ => none
    maskpil := fun _ _ => none }

/-- C9 witness: on `c9env`, the missing path raises FileNotFoundError (and
only because the file is absent), and the existing parseable path returns
the document. -/
theorem load_psd_file_errors_c9_witness :
    ((∃ m, load_psd_file c9env "missing.psd" = Except.error (PyExc.fileNotFound m))
        ↔ c9env.fs.contains "missing.psd" = false)
    ∧ load_psd_file c9env "a.psd" = Except.ok c9doc :=
  ⟨(load_psd_file_errors_c9 c9env "missing.psd" rfl).1,
   (load_psd_file_errors_c9 c9env "a.psd" rfl).2.2 c9doc rfl rfl⟩

/- `extract_layer_image` from `utils/apz_psd_loader_utility.py`: out of
   range or not a pixel layer yields `None`; otherwise the raster decode
   (whose own exceptions are caught to `None`) is consulted. -/
def extract_layer_image (env : LoaderEnv) (psd : PsdDocM) (layer_index : Nat) :
    Option PImage :=
  if psd.layers.length ≤ layer_index then none
  else if (psd.layers.getD layer_index ⟨"", false, false⟩).isPixel = false then none
  else env.topil psd layer_index

/- `extract_layer_mask` from `utils/apz_psd_loader_utility.py`: as above,
   plus `None` when the layer records no mask. -/
def extract_layer_mask (env : LoaderEnv) (psd : PsdDocM) (layer_index : Nat) :
    Option PImage :=
  if psd.layers.length ≤ layer_index then none
  else if (psd.layers.getD layer_index ⟨"", false, false⟩).isPixel = false then none
  else if (psd.layers.getD layer_index ⟨"", false, false⟩).hasMask = false then none
  else env.maskpil psd layer_index

/- `extract_layer_and_mask` from `utils/apz_psd_loader_utility.py`. -/
def extract_layer_and_mask (env : LoaderEnv) (psd : PsdDocM) (layer_index : Nat) :
    Option PImage × Option PImage :=
  (extract_layer_image env psd layer_index, extract_layer_mask env psd layer_index)

/- `pil_to_tensor` from `utils/apz_psd_loader_utility.py`: RGB raster to a
   float tensor of shape [1, H, W, 3] scaled to [0, 1]. -/
def pil_to_tensor (pil_image : PImage) : Tensor :=
  let img := if pil_image.mode = PMode.RGB then pil_image
             else pil_image.convert PMode.RGB
  ⟨true, [1, img.height, img.width, 3],
   fun idx => match idx with
     | [_, y, x, c] =>
         (if c = 0 then ((img.pix x y).r : ℚ)
          else if c = 1 then ((img.pix x y).g : ℚ)
          else ((img.pix x y).b : ℚ)) / 255
     | _ => 0⟩

/- `pil_mask_to_tensor` from `utils/apz_psd_loader_utility.py`: grayscale
   raster to a float tensor of shape [1, H, W] scaled to [0, 1]. -/
def pil_mask_to_tensor (pil_mask : PImage) : Tensor :=
  let m := if pil_mask.mode = PMode.L then pil_mask else pil_mask.convert PMode.L
  ⟨true, [1, m.height, m.width],
   fun idx => match idx with
     | [_, y, x] => ((m.pix x y).r : ℚ) / 255
     | _ => 0⟩

/- The default tensors returned by the loader node on any caught error:
   `torch.zeros((1, 512, 512, 3))` (a black 512x512 image) and
   `torch.ones((1, 512, 512))` (a fully opaque mask). -/
def default_error_image : Tensor := ⟨true, [1, 512, 512, 3], fun _ => 0⟩

def default_error_mask : Tensor := ⟨true, [1, 512, 512], fun _ => 1⟩

/- The `try` block of `load_psd_layer` in `nodes/apzPSDLayerLoader.py`:
   check the dependency, load the file, range-check the index, extract the
   layer and mask, convert to tensors, and look up the layer name. -/
def load_psd_layer_body (env : LoaderEnv) (psd_file : String) (layer_index : Nat)
    (load_mask : String) : Except PyExc (Tensor × Tensor × String × Nat) :=
  if env.psdToolsAvailable = false then
    Except.error (PyExc.importError "psd-tools is not installed")
  else
    match load_psd_file env psd_file with
    | Except.error e => Except.error e
    | Except.ok psd =>
        if (get_psd_info psd).layer_count ≤ layer_index then
          Except.error (PyExc.valueError "Layer index out of range")
        else
          match extract_layer_and_mask env psd layer_index with
          | (none, _) => Except.error (PyExc.valueError "Could not extract layer")
          | (some pil_image, pil_mask) =>
              let image_tensor := pil_to_tensor pil_image
              let mask_tensor :=
                match pil_mask with
                | some m =>
                    if load_mask = "true" then pil_mask_to_tensor m
                    else (⟨true, [1, pil_image.height, pil_image.width], fun _ => 1⟩ : Tensor)
                | none =>
                    (⟨true, [1, pil_image.height, pil_image.width], fun _ => 1⟩ : Tensor)
              let layer_name :=
                if layer_index < psd.layers.length then
                  (psd.layers.getD layer_index ⟨"", false, false⟩).name
                else "Layer " ++ toString layer_index
              Except.ok (image_tensor, mask_tensor, layer_name,
                (get_psd_info psd).layer_count)

/- `load_psd_layer` of `APZmediaPSDLayerLoader`
   (`nodes/apzPSDLayerLoader.py`): the body above with the outer
   `except Exception` handler returning the default image, default mask,
   the name Error and layer count 0. -/
def load_psd_layer (env : LoaderEnv) (psd_file : String) (layer_index : Nat)
    (load_mask : String) : Tensor × Tensor × String × Nat :=
  match load_psd_layer_body env psd_file layer_index load_mask with
  | Except.ok r => r
  | Except.error _ => (default_error_image, default_error_mask, "Error", 0)

/-- C5: whenever `layer_index` is at least the layer count of the opened
document — or any other exception is raised and caught in the body — the
loader node returns the default black 512x512 image tensor, the fully
opaque mask tensor, the layer name Error, and layer count 0, and never
propagates a fault. -/
theorem load_psd_layer_error_defaults_c5 (env : LoaderEnv) (psd_file : String)
    (layer_index : Nat) (load_mask : String) :
    (∀ e, load_psd_layer_body env psd_file layer_index load_mask = Except.error e →
        load_psd_layer env psd_file layer_index load_mask
          = (default_error_image, default_error_mask, "Error", 0))
    ∧ (∀ psd, env.psdToolsAvailable = true →
        env.fs.contains psd_file = true →
        env.parsePsd psd_file = Except.ok psd →
        psd.layers.length ≤ layer_index →
        load_psd_layer env psd_file layer_index load_mask
          = (default_error_image, default_error_mask, "Error", 0))
    ∧ default_error_image = ⟨true, [1, 512, 512, 3], fun _ => 0⟩
    ∧ default_error_mask = ⟨true, [1, 512, 512], fun _ => 1⟩ := by
  refine ⟨?_, ?_, rfl, rfl⟩
  · intro e hb
    unfold load_psd_layer
    rw [hb]
  · intro psd havail hc hp hlen
    have hload : load_psd_file env psd_file = Except.ok psd := by
      rw [load_psd_file, havail, hc, hp]
      rfl
    have hb : load_psd_layer_body env psd_file layer_index load_mask
        = Except.error (PyExc.valueError "Layer index out of range") := by
      rw [load_psd_layer_body, havail, hload]
      simp only [Bool.true_eq_false, if_false]
      rw [if_pos]
      exact hlen
    unfold load_psd_layer
    rw [hb]

/- A concrete loader environment with a single-layer document, used to
   exercise the out-of-range branch of the loader node. -/
def c5doc : PsdDocM := ⟨64, 64, "RGB", [⟨"Layer 1", true, false⟩]⟩

def c5env : LoaderEnv :=
  { psdToolsAvailable := true
    fs := ["in.psd"]
    parsePsd := fun p => if p = "in.psd" then Except.ok c5doc else Except.error "bad header"
    topil := fun _ _ => none
    maskpil := fun _ _ => none }

/-- C5 witness: requesting layer index 1 of a document with exactly one
layer returns the defaults. -/
theorem load_psd_layer_error_defaults_c5_witness :
    c5doc.layers.length ≤ 1
    ∧ load_psd_layer c5env "in.psd" 1 "true"
        = (default_error_image, default_error_mask, "Error", 0) :=
  ⟨by decide,
   (load_psd_layer_error_defaults_c5 c5env "in.psd" 1 "true").2.1 c5doc rfl rfl rfl
     (by decide)⟩
